import Mathlib

/-!
Verification of the OpenScroll update-loop and animation-queue core.

The definitions below are a shallow embedding of
`src/plugins/openscroll.smoothscroller.js` (continuous smoothing, the
animation queue of `scrollTo`/`animate`/`startAnimation`, and `destroy`)
and `src/plugins/openscroll.parallax.js` (`calculateTransform`, `destroy`).
JavaScript numbers are modelled as rationals; the few places where IEEE
non-finite values matter (division by a zero duration) use an explicit
`JsVal` type mirroring Infinity/NaN propagation through `Math.min` and `<`.
-/

namespace OpenScroll

/-- `_clamp(value, min, max) = Math.min(Math.max(value, min), max)`
(openscroll.smoothscroller.js line 150). -/
def jsClamp (value lo hi : ℚ) : ℚ := min (max value lo) hi

/-- The configuration clamp applied to `options.smoothness`:
`this._clamp(options.smoothness ?? 0.94, 0.5, 0.99)` (line 42). -/
def configSmoothness (x : ℚ) : ℚ := jsClamp x (1/2) (99/100)

/-- `deltaTime = Math.min((currentTime - this.lastTime) / 16.67, this.config.maxDeltaTime)`
(line 274), expressed in terms of the elapsed milliseconds. -/
def deltaFrames (maxDeltaTime elapsedMs : ℚ) : ℚ :=
  min (elapsedMs / (1667/100)) maxDeltaTime

/-- The continuous-smoothing branch of `updateScroll` (lines 282-291):
```
const distance = this.targetScroll - this.currentScroll;
const absDistance = Math.abs(distance);
if (absDistance < this.config.minMovement) {
    this.currentScroll = this.targetScroll;
} else {
    this.currentScroll += distance * (1 - this.config.smoothness) * deltaTime;
}
```
Returns the new `currentScroll`. -/
def smoothStep (smoothness minMovement current target df : ℚ) : ℚ :=
  let distance := target - current
  if abs distance < minMovement then target
  else current + distance * (1 - smoothness) * df

/-! ## The animation queue machine

IEEE-style values for `elapsed / animation.duration`: dividing a positive
number by zero yields Infinity, `0 / 0` yields NaN, and `Math.min` and `<`
propagate them exactly as in JS. -/

inductive JsVal where
  | fin (q : ℚ)
  | posInf
  | negInf
  | nan
deriving DecidableEq

/-- JS division `a / b` (finite operands). -/
def jsDiv (a b : ℚ) : JsVal :=
  if b = 0 then (if a = 0 then JsVal.nan else if 0 < a then JsVal.posInf else JsVal.negInf)
  else JsVal.fin (a / b)

/-- `Math.min(v, c)` for a possibly non-finite `v` and finite `c`. -/
def jsMin (v : JsVal) (c : ℚ) : JsVal :=
  match v with
  | JsVal.fin q => JsVal.fin (min q c)
  | JsVal.posInf => JsVal.fin c
  | JsVal.negInf => JsVal.negInf
  | JsVal.nan => JsVal.nan

/-- The JS comparison `v < 1` (false on NaN). -/
def jsLtOne (v : JsVal) : Bool :=
  match v with
  | JsVal.fin q => decide (q < 1)
  | JsVal.posInf => false
  | JsVal.negInf => true
  | JsVal.nan => false

/-- Extract a finite value; the non-finite cases are only reached in the
`progress < 1` branch when `duration = 0` together with a clock running
backwards (`elapsed < 0`), a corner no theorem below depends on. -/
def finVal (v : JsVal) : ℚ :=
  match v with
  | JsVal.fin q => q
  | _ => 0

/-- The built-in default easing
`easeInOutCubic: t => t < 0.5 ? 4*t*t*t : (t-1)*(2*t-2)*(2*t-2)+1` (line 61). -/
def easeInOutCubic (t : ℚ) : ℚ :=
  if t < 1/2 then 4 * t * t * t else (t - 1) * (2 * t - 2) * (2 * t - 2) + 1

/-- The instance's mutable easing table `this.easings`, abstracted as a
partial name-to-function map (seeded with the built-ins, extensible by
`addEasing`). -/
def Easings : Type := String → Option (ℚ → ℚ)

/-- `this.easings[animation.easing] || this.easings.easeInOutCubic` (line 313);
the seeded table always holds the built-in `easeInOutCubic` at that key. -/
def resolveEasing (E : Easings) (name : String) : ℚ → ℚ :=
  (E name).getD easeInOutCubic

/-- An animation object as created by `scrollTo` (lines 401-413). `onComplete`
is identified by the numeric `id` instrumenting object identity: the event
`Ev.complete id` below records its invocation. -/
structure Anim where
  id : Nat
  targetPosition : ℚ
  startPosition : ℚ
  startTime : Option ℚ
  duration : ℚ
  easing : String
deriving DecidableEq

/-- The SmoothScroller instance state touched by the update loop and the
queue: `currentScroll`, `targetScroll`, the browser scroll position
(`window.scrollY`, written by `window.scrollTo`), `lastTime`, the relevant
configuration fields, and the animation channel. -/
structure ScrollerState where
  currentScroll : ℚ
  targetScroll : ℚ
  windowScrollY : ℚ
  lastTime : ℚ
  smoothness : ℚ
  minMovement : ℚ
  maxDeltaTime : ℚ
  isRunning : Bool
  animations : List Anim
  isAnimating : Bool
  currentAnimation : Option Anim
deriving DecidableEq

/-- Observable callback events: `Ev.start id` when `startAnimation` makes the
animation current, `Ev.complete id` when its `onComplete` is invoked. -/
inductive Ev where
  | start (id : Nat)
  | complete (id : Nat)
deriving DecidableEq

/-- `startAnimation(animation)` (lines 349-356): stamps `startTime` from the
clock and `startPosition` from `window.scrollY`, makes it current. -/
def startAnimation (s : ScrollerState) (now : ℚ) (a : Anim) : ScrollerState :=
  { s with
    currentAnimation := some { a with startTime := some now, startPosition := s.windowScrollY },
    isAnimating := true }

/-- `animate()` (lines 304-343). In the `progress < 1` branch the code
assigns the eased interpolation and calls `window.scrollTo(0, currentScroll)`;
in the completion branch it scrolls to exactly `targetPosition`, resets the
channel, invokes `onComplete`, and starts the next queued animation if any.
(The code computes the eased value before the branch and overwrites it in the
completion branch; the state after the call is identical.) -/
def animateStep (E : Easings) (s : ScrollerState) (now : ℚ) : ScrollerState × List Ev :=
  match s.currentAnimation with
  | none => (s, [])
  | some a =>
    let elapsed := now - a.startTime.getD now
    let progress := jsMin (jsDiv elapsed a.duration) 1
    if jsLtOne progress then
      let easedProgress := resolveEasing E a.easing (finVal progress)
      let v := a.startPosition + (a.targetPosition - a.startPosition) * easedProgress
      ({ s with currentScroll := v, windowScrollY := v }, [])
    else
      let s1 := { s with
        currentScroll := a.targetPosition,
        targetScroll := a.targetPosition,
        windowScrollY := a.targetPosition,
        isAnimating := false,
        currentAnimation := none }
      match s1.animations with
      | [] => (s1, [Ev.complete a.id])
      | next :: rest =>
        (startAnimation { s1 with animations := rest } now next,
         [Ev.complete a.id, Ev.start next.id])

/-- `updateScroll()` (lines 270-299): early return when not running,
delta computation and `lastTime` update, then either `animate()` or the
continuous-smoothing branch. -/
def updateScroll (E : Easings) (s : ScrollerState) (now : ℚ) : ScrollerState × List Ev :=
  if s.isRunning = false then (s, [])
  else
    let dt := min ((now - s.lastTime) / (1667/100)) s.maxDeltaTime
    let s := { s with lastTime := now }
    if s.isAnimating && s.currentAnimation.isSome then
      animateStep E s now
    else
      ({ s with currentScroll := smoothStep s.smoothness s.minMovement s.currentScroll s.targetScroll dt }, [])

/-- The queue-manipulating tail of `scrollTo` (lines 415-430): immediate
enqueues discard the backlog and the in-flight animation without invoking
their callbacks; non-immediate enqueues append to the backlog. -/
def enqueueAnim (s : ScrollerState) (now : ℚ) (a : Anim) (immediate : Bool) : ScrollerState × List Ev :=
  if s.isAnimating then
    if immediate then
      (startAnimation { s with animations := [], isAnimating := false, currentAnimation := none } now a,
       [Ev.start a.id])
    else
      ({ s with animations := s.animations ++ [a] }, [])
  else
    (startAnimation s now a, [Ev.start a.id])

/-- `handleScroll()` (lines 261-265): a scroll event moves `window.scrollY`;
the handler copies it into `targetScroll` only when no animation is active. -/
def scrollEvent (s : ScrollerState) (y : ℚ) : ScrollerState :=
  { s with
    windowScrollY := y,
    targetScroll := if s.isAnimating then s.targetScroll else y }

/-- One externally triggered transition of the scroller. -/
inductive Step where
  | enqueue (a : Anim) (immediate : Bool) (now : ℚ)
  | tick (now : ℚ)
  | scroll (y : ℚ)
deriving DecidableEq

def stepRun (E : Easings) (s : ScrollerState) : Step → ScrollerState × List Ev
  | Step.enqueue a imm now => enqueueAnim s now a imm
  | Step.tick now => updateScroll E s now
  | Step.scroll y => (scrollEvent s y, [])

/-- Run a sequence of transitions, accumulating the emitted events. -/
def run (E : Easings) (s : ScrollerState) : List Step → ScrollerState × List Ev
  | [] => (s, [])
  | st :: rest =>
    let p := stepRun E s st
    let p2 := run E p.1 rest
    (p2.1, p.2 ++ p2.2)

def evId : Ev → Nat
  | Ev.start i => i
  | Ev.complete i => i

/-- Identities of the animations queued in the backlog. -/
def queueIds (s : ScrollerState) : List Nat := s.animations.map (fun a => a.id)

/-- Identities of the in-flight animation and the backlog. -/
def stateIds (s : ScrollerState) : List Nat :=
  (s.currentAnimation.map (fun a => a.id)).toList ++ queueIds s

def stepEnqIds : Step → List Nat
  | Step.enqueue a _ _ => [a.id]
  | _ => []

def enqIds : List Step → List Nat
  | [] => []
  | st :: rest => stepEnqIds st ++ enqIds rest

/-- Number of `onComplete` invocations of animation `id` in a trace. -/
def countComplete (id : Nat) : List Ev → Nat
  | [] => 0
  | Ev.complete j :: rest => (if j = id then 1 else 0) + countComplete id rest
  | Ev.start _ :: rest => countComplete id rest

/-! ## Trace lemmas for the animation queue -/

theorem countComplete_append (id : Nat) (l1 l2 : List Ev) :
    countComplete id (l1 ++ l2) = countComplete id l1 + countComplete id l2 := by
  induction l1 with
  | nil => simp [countComplete]
  | cons ev rest ih =>
    cases ev with
    | start i => simpa [countComplete] using ih
    | complete j => simp [countComplete, ih]; omega

theorem countComplete_eq_zero_iff (id : Nat) (l : List Ev) :
    countComplete id l = 0 ↔ Ev.complete id ∉ l := by
  induction l with
  | nil => simp [countComplete]
  | cons ev rest ih =>
    cases ev with
    | start i => simp [countComplete, ih]
    | complete j =>
      by_cases h : j = id
      · subst h; simp [countComplete]
      · simp [countComplete, h, ih, Ne.symm h]

theorem stateIds_lastTime (s : ScrollerState) (now : ℚ) :
    stateIds { s with lastTime := now } = stateIds s := rfl

theorem animateStep_ev_mem (E : Easings) (s : ScrollerState) (now : ℚ) :
    ∀ ev ∈ (animateStep E s now).2, evId ev ∈ stateIds s := by
  intro ev hev
  unfold animateStep at hev
  cases hc : s.currentAnimation with
  | none => rw [hc] at hev; simp at hev
  | some a =>
    rw [hc] at hev
    simp only [] at hev
    split at hev
    · simp at hev
    · split at hev
      case _ heq =>
        simp at hev
        subst hev
        simp [stateIds, hc, evId]
      case _ next rest heq =>
        simp at hev
        rcases hev with h | h <;> subst h <;>
          simp [stateIds, queueIds, hc, heq, evId]

theorem animateStep_state_sub (E : Easings) (s : ScrollerState) (now : ℚ) :
    ∀ i ∈ stateIds (animateStep E s now).1, i ∈ stateIds s := by
  intro i hi
  unfold animateStep at hi
  cases hc : s.currentAnimation with
  | none => rwa [hc] at hi
  | some a =>
    rw [hc] at hi
    simp only [] at hi
    split at hi
    · simpa [stateIds, queueIds, hc] using hi
    · split at hi
      case _ heq =>
        simp [stateIds, queueIds, heq] at hi
      case _ next rest heq =>
        simp [stateIds, queueIds, startAnimation] at hi
        simp [stateIds, queueIds, hc, heq]
        tauto

theorem stepRun_ev_mem (E : Easings) (s : ScrollerState) (st : Step) :
    ∀ ev ∈ (stepRun E s st).2, evId ev ∈ stateIds s ++ stepEnqIds st := by
  intro ev hev
  cases st with
  | enqueue a imm now =>
    simp only [stepRun, enqueueAnim] at hev
    by_cases hA : s.isAnimating
    · by_cases him : imm
      · simp [hA, him] at hev
        subst hev
        simp [stepEnqIds, evId]
      · simp [hA, him] at hev
    · simp [hA] at hev
      subst hev
      simp [stepEnqIds, evId]
  | tick now =>
    simp only [stepRun, updateScroll] at hev
    split at hev
    · simp at hev
    · split at hev
      · have := animateStep_ev_mem E { s with lastTime := now } now ev hev
        rw [stateIds_lastTime] at this
        simp [stepEnqIds, this]
      · simp at hev
  | scroll y => simp [stepRun] at hev

theorem stepRun_state_sub (E : Easings) (s : ScrollerState) (st : Step) :
    ∀ i ∈ stateIds (stepRun E s st).1, i ∈ stateIds s ++ stepEnqIds st := by
  intro i hi
  cases st with
  | enqueue a imm now =>
    simp only [stepRun, enqueueAnim] at hi
    by_cases hA : s.isAnimating
    · by_cases him : imm
      · simp [hA, him, startAnimation, stateIds, queueIds] at hi
        simp [stepEnqIds, hi]
      · simp [hA, him, stateIds, queueIds] at hi
        simp [stateIds, queueIds, stepEnqIds]
        tauto
    · simp [hA, startAnimation, stateIds, queueIds] at hi
      rcases hi with h | h
      · simp [stepEnqIds, h]
      · refine List.mem_append_left _ ?_
        simp [stateIds, queueIds]
        exact Or.inr h
  | tick now =>
    simp only [stepRun, updateScroll] at hi
    split at hi
    · simp [stepEnqIds, hi]
    · split at hi
      · have := animateStep_state_sub E { s with lastTime := now } now i hi
        rw [stateIds_lastTime] at this
        simp [stepEnqIds, this]
      · simp [stateIds, queueIds] at hi
        simp [stepEnqIds, stateIds, queueIds, hi]
  | scroll y =>
    simp only [stepRun, scrollEvent] at hi
    simp [stateIds, queueIds] at hi
    simp [stepEnqIds, stateIds, queueIds, hi]

theorem run_ev_mem (E : Easings) (steps : List Step) :
    ∀ (s : ScrollerState), ∀ ev ∈ (run E s steps).2,
      evId ev ∈ stateIds s ++ enqIds steps := by
  induction steps with
  | nil => intro s ev hev; simp [run] at hev
  | cons st rest ih =>
    intro s ev hev
    simp only [run, List.mem_append] at hev
    rcases hev with h | h
    · have := stepRun_ev_mem E s st ev h
      simp only [enqIds, List.mem_append] at *
      tauto
    · have := ih (stepRun E s st).1 ev h
      simp only [List.mem_append] at this
      rcases this with h1 | h1
      · have := stepRun_state_sub E s st _ h1
        simp only [enqIds, List.mem_append] at *
        tauto
      · simp only [enqIds, List.mem_append]
        tauto

theorem run_countComplete_eq_zero (E : Easings) (s : ScrollerState) (steps : List Step)
    (id : Nat) (h : id ∉ stateIds s ++ enqIds steps) :
    countComplete id (run E s steps).2 = 0 := by
  rw [countComplete_eq_zero_iff]
  intro hmem
  exact h (run_ev_mem E steps s (Ev.complete id) hmem)

theorem animateStep_complete_facts (E : Easings) (s : ScrollerState) (now : ℚ) (a : Anim)
    (id : Nat) (hc : s.currentAnimation = some a)
    (hp : jsLtOne (jsMin (jsDiv (now - a.startTime.getD now) a.duration) 1) = false) :
    countComplete id (animateStep E s now).2 = (if a.id = id then 1 else 0)
    ∧ stateIds (animateStep E s now).1 = queueIds s := by
  unfold animateStep
  rw [hc]
  simp only []
  split
  case isTrue hcond => exact absurd hcond (by simp [hp])
  case isFalse =>
    split
    case _ hq =>
      constructor
      · simp [countComplete]
      · simp [stateIds, queueIds, hq]
    case _ next rest hq =>
      constructor
      · simp [countComplete]
      · simp [stateIds, queueIds, startAnimation, hq]

theorem animateStep_partial_facts (E : Easings) (s : ScrollerState) (now : ℚ) (a : Anim)
    (hc : s.currentAnimation = some a)
    (hp : jsLtOne (jsMin (jsDiv (now - a.startTime.getD now) a.duration) 1) = true) :
    (animateStep E s now).2 = [] ∧ stateIds (animateStep E s now).1 = stateIds s := by
  unfold animateStep
  rw [hc]
  simp only []
  split
  case isTrue => exact ⟨rfl, by simp [stateIds, queueIds, hc]⟩
  case isFalse hcond => exact absurd hp (by simpa using hcond)

theorem updateScroll_notRunning (E : Easings) (s : ScrollerState) (now : ℚ)
    (hR : s.isRunning = false) : updateScroll E s now = (s, []) := by
  simp [updateScroll, hR]

theorem updateScroll_smoothing (E : Easings) (s : ScrollerState) (now : ℚ)
    (hR : s.isRunning = true)
    (hC : (s.isAnimating && s.currentAnimation.isSome) = false) :
    updateScroll E s now =
      ({ s with lastTime := now,
                currentScroll := smoothStep s.smoothness s.minMovement s.currentScroll
                  s.targetScroll (min ((now - s.lastTime) / (1667/100)) s.maxDeltaTime) }, []) := by
  unfold updateScroll
  rw [if_neg (by simp [hR])]
  simp only []
  rw [if_neg (by simp_all)]

theorem updateScroll_animating (E : Easings) (s : ScrollerState) (now : ℚ)
    (hR : s.isRunning = true)
    (hC : (s.isAnimating && s.currentAnimation.isSome) = true) :
    updateScroll E s now = animateStep E { s with lastTime := now } now := by
  unfold updateScroll
  rw [if_neg (by simp [hR])]
  simp only []
  rw [if_pos (by simp_all)]

theorem run_countComplete_le_one (E : Easings) (steps : List Step) :
    ∀ s : ScrollerState, (stateIds s ++ enqIds steps).Nodup →
      ∀ id : Nat, countComplete id (run E s steps).2 ≤ 1 := by
  induction steps with
  | nil => intro s _ id; simp [run, countComplete]
  | cons st rest ih =>
    intro s h id
    simp only [run]
    rw [countComplete_append]
    cases st with
    | scroll y =>
      have h1 : countComplete id (stepRun E s (Step.scroll y)).2 = 0 := by
        simp [stepRun, countComplete]
      rw [h1, Nat.zero_add]
      exact ih (stepRun E s (Step.scroll y)).1 h id
    | enqueue a imm now =>
      have h1 : countComplete id (stepRun E s (Step.enqueue a imm now)).2 = 0 := by
        simp only [stepRun, enqueueAnim]
        by_cases hA : s.isAnimating <;> by_cases him : imm <;>
          simp [hA, him, countComplete]
      rw [h1, Nat.zero_add]
      apply ih
      by_cases hA : s.isAnimating
      · by_cases him : imm
        · have hst : stateIds (stepRun E s (Step.enqueue a imm now)).1 = [a.id] := by
            simp [stepRun, enqueueAnim, hA, him, startAnimation, stateIds, queueIds]
          rw [hst]
          exact (List.sublist_append_right (stateIds s) _).nodup h
        · have hst : stateIds (stepRun E s (Step.enqueue a imm now)).1 = stateIds s ++ [a.id] := by
            simp [stepRun, enqueueAnim, hA, him, stateIds, queueIds]
          rw [hst, List.append_assoc]
          exact h
      · have hst : stateIds (stepRun E s (Step.enqueue a imm now)).1 = a.id :: queueIds s := by
          simp [stepRun, enqueueAnim, hA, startAnimation, stateIds, queueIds]
        rw [hst]
        have hh : (stateIds s ++ a.id :: enqIds rest).Nodup := h
        have h2 : (a.id :: (stateIds s ++ enqIds rest)).Nodup :=
          (List.perm_middle.nodup hh)
        rw [List.nodup_cons] at h2
        rw [List.cons_append, List.nodup_cons]
        refine ⟨?_, ?_⟩
        · intro hmem
          apply h2.1
          rcases List.mem_append.mp hmem with hq | he
          · exact List.mem_append.mpr (Or.inl (List.mem_append_right _ hq))
          · exact List.mem_append.mpr (Or.inr he)
        · exact ((List.sublist_append_right _ (queueIds s)).append_right _).nodup h2.2
    | tick now =>
      by_cases hR : s.isRunning = true
      · by_cases hC : (s.isAnimating && s.currentAnimation.isSome) = true
        · obtain ⟨a, hc⟩ : ∃ a, s.currentAnimation = some a := by
            rcases Bool.and_eq_true .. |>.mp hC with ⟨_, hs⟩
            exact Option.isSome_iff_exists.mp hs
          have hc' : ScrollerState.currentAnimation { s with lastTime := now } = some a := hc
          have hSI : stateIds s = a.id :: queueIds s := by simp [stateIds, hc]
          rw [hSI, List.cons_append, List.nodup_cons] at h
          have hstep : stepRun E s (Step.tick now) = animateStep E { s with lastTime := now } now := by
            simp only [stepRun]
            exact updateScroll_animating E s now hR hC
          by_cases hp : jsLtOne (jsMin (jsDiv (now - a.startTime.getD now) a.duration) 1) = true
          · have hfacts := animateStep_partial_facts E { s with lastTime := now } now a hc' hp
            rw [hstep, hfacts.1]
            simp only [countComplete, Nat.zero_add]
            apply ih
            rw [hfacts.2, stateIds_lastTime, hSI, List.cons_append, List.nodup_cons]
            exact h
          · have hfacts := animateStep_complete_facts E { s with lastTime := now } now a id hc'
              (by simpa using hp)
            rw [hstep, hfacts.1]
            by_cases hid : a.id = id
            · rw [if_pos hid]
              have hzero : countComplete id (run E (animateStep E { s with lastTime := now } now).1 rest).2 = 0 := by
                apply run_countComplete_eq_zero
                rw [hfacts.2]
                subst hid
                intro hmem
                exact h.1 (by simpa [queueIds] using hmem)
              omega
            · rw [if_neg hid, Nat.zero_add]
              apply ih
              rw [hfacts.2]
              exact h.2
        · have hstep := updateScroll_smoothing E s now hR (by simpa using hC)
          have h1 : countComplete id (stepRun E s (Step.tick now)).2 = 0 := by
            simp [stepRun, hstep, countComplete]
          rw [h1, Nat.zero_add]
          apply ih
          have hst : stateIds (stepRun E s (Step.tick now)).1 = stateIds s := by
            simp [stepRun, hstep, stateIds, queueIds]
          rw [hst]
          exact h
      · have hstep := updateScroll_notRunning E s now (by simpa using hR)
        have h1 : countComplete id (stepRun E s (Step.tick now)).2 = 0 := by
          simp [stepRun, hstep, countComplete]
        rw [h1, Nat.zero_add]
        apply ih
        have hst : stateIds (stepRun E s (Step.tick now)).1 = stateIds s := by
          simp [stepRun, hstep]
        rw [hst]
        exact h

theorem animateStep_complete_scroll (E : Easings) (s : ScrollerState) (now : ℚ) (a : Anim)
    (hc : s.currentAnimation = some a)
    (hp : jsLtOne (jsMin (jsDiv (now - a.startTime.getD now) a.duration) 1) = false) :
    (animateStep E s now).1.currentScroll = a.targetPosition
    ∧ (animateStep E s now).1.windowScrollY = a.targetPosition
    ∧ (animateStep E s now).1.targetScroll = a.targetPosition := by
  unfold animateStep
  rw [hc]
  simp only []
  split
  case isTrue hcond => exact absurd hcond (by simp [hp])
  case isFalse =>
    split
    case _ hq => exact ⟨rfl, rfl, rfl⟩
    case _ next rest hq => exact ⟨rfl, rfl, rfl⟩

theorem jsLtOne_progress_end (st d : ℚ) (hd : d ≠ 0) :
    jsLtOne (jsMin (jsDiv (st + d - st) d) 1) = false := by
  have h : st + d - st = d := by ring
  rw [h]
  simp [jsDiv, hd, jsMin, jsLtOne, div_self hd]

theorem enqueueAnim_queued (s : ScrollerState) (now : ℚ) (a : Anim)
    (hA : s.isAnimating = true) :
    enqueueAnim s now a false = ({ s with animations := s.animations ++ [a] }, []) := by
  simp [enqueueAnim, hA]

theorem updateScroll_complete_nil (E : Easings) (s : ScrollerState) (now : ℚ) (a : Anim)
    (hR : s.isRunning = true) (hA : s.isAnimating = true)
    (hc : s.currentAnimation = some a) (hq : s.animations = [])
    (hp : jsLtOne (jsMin (jsDiv (now - a.startTime.getD now) a.duration) 1) = false) :
    updateScroll E s now =
      ({ s with lastTime := now,
                currentScroll := a.targetPosition,
                targetScroll := a.targetPosition,
                windowScrollY := a.targetPosition,
                isAnimating := false,
                currentAnimation := none },
       [Ev.complete a.id]) := by
  rw [updateScroll_animating E s now hR (by simp [hA, hc])]
  unfold animateStep
  have hc' : ScrollerState.currentAnimation { s with lastTime := now } = some a := hc
  rw [hc']
  simp only []
  rw [if_neg (by simp [hp])]
  rw [hq]

theorem updateScroll_complete_cons (E : Easings) (s : ScrollerState) (now : ℚ)
    (a next : Anim) (rest : List Anim)
    (hR : s.isRunning = true) (hA : s.isAnimating = true)
    (hc : s.currentAnimation = some a) (hq : s.animations = next :: rest)
    (hp : jsLtOne (jsMin (jsDiv (now - a.startTime.getD now) a.duration) 1) = false) :
    updateScroll E s now =
      ({ s with lastTime := now,
                currentScroll := a.targetPosition,
                targetScroll := a.targetPosition,
                windowScrollY := a.targetPosition,
                animations := rest,
                isAnimating := true,
                currentAnimation := some { next with startTime := some now,
                                                     startPosition := a.targetPosition } },
       [Ev.complete a.id, Ev.start next.id]) := by
  rw [updateScroll_animating E s now hR (by simp [hA, hc])]
  unfold animateStep
  have hc' : ScrollerState.currentAnimation { s with lastTime := now } = some a := hc
  rw [hc']
  simp only []
  rw [if_neg (by simp [hp])]
  rw [hq]
  rfl

/-! ## Continuous smoothing: claims about `smoothStep` -/

/-- Claim C1. One continuous-smoothing update with
`|targetScroll - currentScroll| >= minMovement` adds
`(targetScroll - currentScroll) * (1 - smoothness) * deltaFrames` to
`currentScroll`; below the threshold it sets `currentScroll` to
`targetScroll`; with `smoothness = 0.9`, `minMovement = 0.5`, `current = 0`
and `target = 100`, one update at `deltaFrames = 1` yields `10` and a second
update with the same target yields `19`. -/
theorem continuous_smoother_update :
    (∀ s mm c t df : ℚ, mm ≤ abs (t - c) →
        smoothStep s mm c t df = c + (t - c) * (1 - s) * df)
    ∧ (∀ s mm c t df : ℚ, abs (t - c) < mm → smoothStep s mm c t df = t)
    ∧ smoothStep (9/10) (1/2) 0 100 1 = 10
    ∧ smoothStep (9/10) (1/2) (smoothStep (9/10) (1/2) 0 100 1) 100 1 = 19 := by
  refine ⟨?_, ?_, ?_, ?_⟩
  · intro s mm c t df h
    rw [smoothStep, if_neg (not_lt.mpr h)]
  · intro s mm c t df h
    rw [smoothStep, if_pos h]
  · norm_num [smoothStep, abs]
  · norm_num [smoothStep, abs]

/-- Concrete instance of `continuous_smoother_update`. -/
theorem continuous_smoother_update_witness :
    smoothStep (9/10) (1/2) 0 100 1 = 0 + (100 - 0) * (1 - 9/10) * 1
    ∧ smoothStep (9/10) (1/2) 100 100 1 = 100 :=
  ⟨continuous_smoother_update.1 (9/10) (1/2) 0 100 1 (by norm_num),
   continuous_smoother_update.2.1 (9/10) (1/2) 100 100 1 (by norm_num)⟩

/-- Claim C2, counterexample. The update can overshoot and flip the sign of
`targetScroll - currentScroll`: with configured smoothness `0.5` (inside
`(0,1)` and unchanged by the configuration clamp), `minMovement = 0.5`,
`maxDeltaTime = 10`, `currentScroll = 0`, `targetScroll = 100` and
`10000` elapsed milliseconds (so the clamped `deltaFrames` is `10`), one
update moves `currentScroll` to `500`, past the target. -/
theorem no_overshoot_counterexample :
    0 < configSmoothness (1/2) ∧ configSmoothness (1/2) < 1
    ∧ deltaFrames 10 10000 = 10
    ∧ smoothStep (configSmoothness (1/2)) (1/2) 0 100 (deltaFrames 10 10000) = 500
    ∧ (100 - smoothStep (configSmoothness (1/2)) (1/2) 0 100 (deltaFrames 10 10000)) * (100 - 0) < 0 := by
  norm_num [configSmoothness, jsClamp, deltaFrames, smoothStep, abs]

/-- Claim C2, amended. For every smoothness `s` in the clamped range
`[0.5, 0.99]` and every `maxDeltaTime` with `(1 - s) * maxDeltaTime ≤ 1`
(which holds for the default `maxDeltaTime = 2` over the whole clamped
range), a single continuous-smoothing update never flips the sign of
`targetScroll - currentScroll`, for any elapsed time. -/
theorem no_overshoot_amended (s mm mdt c t elapsedMs : ℚ)
    (_hs0 : 1/2 ≤ s) (hs1 : s ≤ 99/100) (hmdt : (1 - s) * mdt ≤ 1) :
    0 ≤ (t - smoothStep s mm c t (deltaFrames mdt elapsedMs)) * (t - c) := by
  have hs : s ≤ 1 := hs1.trans (by norm_num)
  set df := deltaFrames mdt elapsedMs with hdf
  have hdfle : df ≤ mdt := min_le_right _ _
  have hk : (1 - s) * df ≤ 1 := by
    calc (1 - s) * df ≤ (1 - s) * mdt := by
          exact mul_le_mul_of_nonneg_left hdfle (by linarith)
      _ ≤ 1 := hmdt
  rw [smoothStep]
  by_cases h : abs (t - c) < mm
  · simp [h]
  · rw [if_neg h]
    have : t - (c + (t - c) * (1 - s) * df) = (t - c) * (1 - (1 - s) * df) := by ring
    rw [this]
    have h1 : 0 ≤ 1 - (1 - s) * df := by linarith
    have h2 : 0 ≤ (t - c) * (t - c) := mul_self_nonneg _
    calc (0:ℚ) ≤ ((t - c) * (t - c)) * (1 - (1 - s) * df) := mul_nonneg h2 h1
      _ = (t - c) * (1 - (1 - s) * df) * (t - c) := by ring

/-- Concrete instance of `no_overshoot_amended` at the default configuration
`smoothness = 0.94`, `minMovement = 0.5`, `maxDeltaTime = 2`. -/
theorem no_overshoot_amended_witness :
    0 ≤ (100 - smoothStep (47/50) (1/2) 0 100 (deltaFrames 2 100)) * (100 - 0) :=
  no_overshoot_amended (47/50) (1/2) 2 0 100 100 (by norm_num) (by norm_num) (by norm_num)

/-- Claim C7. Once `|targetScroll - currentScroll| < minMovement`, one
continuous-smoothing update sets `currentScroll` to `targetScroll`, and any
further sequence of updates towards the unchanged target leaves it there. -/
theorem snap_settle (s mm c t : ℚ) (h : abs (t - c) < mm) :
    (∀ df : ℚ, smoothStep s mm c t df = t)
    ∧ ∀ dfs : List ℚ, dfs.foldl (fun cur df => smoothStep s mm cur t df) t = t := by
  have hfix : ∀ df : ℚ, smoothStep s mm t t df = t := by
    intro df
    simp [smoothStep]
  refine ⟨fun df => by rw [smoothStep, if_pos h], fun dfs => ?_⟩
  induction dfs with
  | nil => rfl
  | cons d rest ih => simpa [hfix d] using ih

/-- Concrete instance of `snap_settle`. -/
theorem snap_settle_witness :
    smoothStep (47/50) (1/2) (999/10) 100 1 = 100
    ∧ [(1:ℚ), 2, 1/2].foldl (fun cur df => smoothStep (47/50) (1/2) cur 100 df) 100 = 100 :=
  ⟨(snap_settle (47/50) (1/2) (999/10) 100 (by norm_num [abs])).1 1,
   (snap_settle (47/50) (1/2) (999/10) 100 (by norm_num [abs])).2 [(1:ℚ), 2, 1/2]⟩

/-! ## Animation queue: claims -/

/-- An empty easing table: every lookup falls back to the default. -/
def emptyEasings : Easings := fun _ => none

/-- An in-flight animation used in concrete instances. -/
def animX : Anim :=
  { id := 1, targetPosition := 100, startPosition := 0, startTime := some 0,
    duration := 1, easing := "linear" }

/-- A queued animation used in concrete instances. -/
def animY : Anim :=
  { id := 3, targetPosition := 200, startPosition := 0, startTime := none,
    duration := 1, easing := "linear" }

/-- An animation enqueued with `immediate = true` in concrete instances. -/
def animW : Anim :=
  { id := 2, targetPosition := 50, startPosition := 0, startTime := none,
    duration := 1, easing := "linear" }

/-- A running scroller with `animX` in flight and `animY` queued. -/
def busyScroller : ScrollerState :=
  { currentScroll := 0, targetScroll := 0, windowScrollY := 0, lastTime := 0,
    smoothness := 47/50, minMovement := 1/2, maxDeltaTime := 2, isRunning := true,
    animations := [animY], isAnimating := true, currentAnimation := some animX }

/-- Claim C3. Exactly-once completion: (1) over any transition sequence whose
animation identities are pairwise distinct, each animation's `onComplete`
runs at most once; (2) the tick on which the current animation's progress
reaches 1 runs its `onComplete` exactly once; (3) after an enqueue with
`immediate = true`, the only `onComplete` callbacks that can ever fire are
the newly enqueued animation's and those of animations enqueued later — the
discarded in-flight animation and discarded backlog never fire. -/
theorem onComplete_exactly_once :
    (∀ (E : Easings) (s : ScrollerState) (steps : List Step) (id : Nat),
        (stateIds s ++ enqIds steps).Nodup →
        countComplete id (run E s steps).2 ≤ 1)
    ∧ (∀ (E : Easings) (s : ScrollerState) (now : ℚ) (a : Anim),
        s.isRunning = true → s.isAnimating = true → s.currentAnimation = some a →
        jsLtOne (jsMin (jsDiv (now - a.startTime.getD now) a.duration) 1) = false →
        countComplete a.id (updateScroll E s now).2 = 1)
    ∧ (∀ (E : Easings) (s : ScrollerState) (now : ℚ) (w : Anim) (steps : List Step) (id : Nat),
        s.isAnimating = true →
        (Ev.complete id ∈ (enqueueAnim s now w true).2 ∨
          Ev.complete id ∈ (run E (enqueueAnim s now w true).1 steps).2) →
        id = w.id ∨ id ∈ enqIds steps) := by
  refine ⟨fun E s steps id h => run_countComplete_le_one E steps s h id, ?_, ?_⟩
  · intro E s now a hR hA hc hp
    rw [updateScroll_animating E s now hR (by simp [hA, hc])]
    have hc' : ScrollerState.currentAnimation { s with lastTime := now } = some a := hc
    have := (animateStep_complete_facts E { s with lastTime := now } now a a.id hc' hp).1
    simpa using this
  · intro E s now w steps id hA hmem
    have hst : stateIds (enqueueAnim s now w true).1 = [w.id] := by
      simp [enqueueAnim, hA, startAnimation, stateIds, queueIds]
    rcases hmem with h | h
    · exact absurd h (by simp [enqueueAnim, hA])
    · have := run_ev_mem E steps _ (Ev.complete id) h
      rw [hst] at this
      simpa [evId] using this

/-- Concrete instance of `onComplete_exactly_once`: `animX` in flight with
`animY` queued; one tick past `animX`'s duration completes it exactly once;
after an immediate enqueue of `animW`, the only completion that fires on the
next tick is `animW`'s. -/
theorem onComplete_exactly_once_witness :
    countComplete 1 (run emptyEasings busyScroller [Step.tick 1]).2 ≤ 1
    ∧ countComplete 1 (updateScroll emptyEasings busyScroller 1).2 = 1
    ∧ ((2 = animW.id ∨ 2 ∈ enqIds ([Step.tick 1] : List Step))) :=
  ⟨(onComplete_exactly_once.1 emptyEasings busyScroller [Step.tick 1] 1 (by decide)),
   (onComplete_exactly_once.2.1 emptyEasings busyScroller 1 animX rfl rfl rfl
      (by norm_num [animX, jsDiv, jsMin, jsLtOne])),
   (onComplete_exactly_once.2.2 emptyEasings busyScroller 0 animW [Step.tick 1] 2 rfl
      (Or.inr (by
        norm_num [run, stepRun, enqueueAnim, busyScroller, animW, animX, animY,
          startAnimation, updateScroll, animateStep, jsDiv, jsMin, jsLtOne, finVal,
          resolveEasing, emptyEasings])))⟩

/-- Claim C10. The promise of an animation discarded by an `immediate = true`
enqueue never settles: once enqueued, a `scrollTo` promise is resolved only
from the animation's `onComplete` wrapper, and for every discarded animation
(the in-flight one or any queued one, identified by `id ∈ stateIds s`) no
`onComplete` event occurs during the immediate enqueue or in any later
transition sequence that does not re-enqueue that identity. -/
theorem discarded_promise_never_settles (E : Easings) (s : ScrollerState) (now : ℚ)
    (w : Anim) (steps : List Step) (id : Nat)
    (hA : s.isAnimating = true)
    (_hdisc : id ∈ stateIds s)
    (hne : id ≠ w.id) (hfut : id ∉ enqIds steps) :
    Ev.complete id ∉ (enqueueAnim s now w true).2
    ∧ Ev.complete id ∉ (run E (enqueueAnim s now w true).1 steps).2 := by
  have hst : stateIds (enqueueAnim s now w true).1 = [w.id] := by
    simp [enqueueAnim, hA, startAnimation, stateIds, queueIds]
  refine ⟨by simp [enqueueAnim, hA], ?_⟩
  intro hmem
  have := run_ev_mem E steps _ (Ev.complete id) hmem
  rw [hst] at this
  rcases List.mem_append.mp this with h | h
  · exact hne (by simpa [evId] using h)
  · exact hfut (by simpa [evId] using h)

/-- Concrete instance of `discarded_promise_never_settles`: the queued
`animY` (id 3) is discarded by an immediate enqueue of `animW` and its
completion never fires during the enqueue or a subsequent completing tick. -/
theorem discarded_promise_never_settles_witness :
    Ev.complete 3 ∉ (enqueueAnim busyScroller 0 animW true).2
    ∧ Ev.complete 3 ∉ (run emptyEasings (enqueueAnim busyScroller 0 animW true).1
        [Step.tick 1]).2 :=
  discarded_promise_never_settles emptyEasings busyScroller 0 animW [Step.tick 1] 3
    rfl (by decide) (by decide) (by decide)

/-- An animation with a negative duration, as `scrollTo` would queue for
`options.duration = -1`. -/
def animNeg : Anim :=
  { id := 7, targetPosition := 100, startPosition := 0, startTime := some 0,
    duration := -1, easing := "linear" }

/-- A running scroller with `animNeg` in flight and an empty backlog. -/
def negScroller : ScrollerState :=
  { currentScroll := 0, targetScroll := 0, windowScrollY := 0, lastTime := 0,
    smoothness := 47/50, minMovement := 1/2, maxDeltaTime := 2, isRunning := true,
    animations := [], isAnimating := true, currentAnimation := some animNeg }

/-- Claim C4, counterexample. An animation with `duration = -1` started at
time 0 does not complete on its first tick (at time 16): `progress` is
negative, so the `progress < 1` branch runs, no `onComplete` fires, and the
channel remains in the ANIMATING state with the same animation current. -/
theorem negative_duration_stuck :
    (updateScroll emptyEasings negScroller 16).2 = []
    ∧ (updateScroll emptyEasings negScroller 16).1.isAnimating = true
    ∧ (updateScroll emptyEasings negScroller 16).1.currentAnimation = some animNeg := by
  norm_num [updateScroll, animateStep, negScroller, animNeg, jsDiv, jsMin, jsLtOne, finVal,
    resolveEasing, emptyEasings, easeInOutCubic]

/-- Claim C4, amended. An animation with `duration = 0` completes on the
first tick after it becomes current (for any tick time not earlier than its
start time): the JS progress computation produces Infinity (or NaN when the
elapsed time is 0), the `progress < 1` test fails either way, `onComplete`
fires exactly once on that tick, and the applied scroll is exactly
`targetPosition`. Durations strictly below 0 are excluded: the code loops
forever on them. -/
theorem zero_duration_completes (E : Easings) (s : ScrollerState) (now st : ℚ) (a : Anim)
    (hR : s.isRunning = true) (hA : s.isAnimating = true) (hc : s.currentAnimation = some a)
    (hst : a.startTime = some st) (hnow : st ≤ now) (hd : a.duration = 0) :
    countComplete a.id (updateScroll E s now).2 = 1
    ∧ (updateScroll E s now).1.currentScroll = a.targetPosition := by
  have hp : jsLtOne (jsMin (jsDiv (now - a.startTime.getD now) a.duration) 1) = false := by
    rw [hst, hd]
    simp only [Option.getD_some]
    rcases lt_or_eq_of_le hnow with h | h
    · have h1 : now - st ≠ 0 := sub_ne_zero_of_ne (ne_of_gt h)
      have h2 : 0 < now - st := by linarith
      simp [jsDiv, h1, h2, jsMin, jsLtOne]
    · subst h
      simp [jsDiv, jsMin, jsLtOne]
  have hC : (s.isAnimating && s.currentAnimation.isSome) = true := by simp [hA, hc]
  rw [updateScroll_animating E s now hR hC]
  have hc' : ScrollerState.currentAnimation { s with lastTime := now } = some a := hc
  refine ⟨?_, (animateStep_complete_scroll E _ now a hc' hp).1⟩
  have := (animateStep_complete_facts E { s with lastTime := now } now a a.id hc' hp).1
  simpa using this

/-- A running scroller with a zero-duration animation in flight. -/
def zeroScroller : ScrollerState :=
  { currentScroll := 0, targetScroll := 0, windowScrollY := 0, lastTime := 0,
    smoothness := 47/50, minMovement := 1/2, maxDeltaTime := 2, isRunning := true,
    animations := [],
    isAnimating := true,
    currentAnimation := some { id := 9, targetPosition := 40, startPosition := 0,
                               startTime := some 0, duration := 0, easing := "linear" } }

/-- Concrete instance of `zero_duration_completes` at tick time 16. -/
theorem zero_duration_completes_witness :
    countComplete 9 (updateScroll emptyEasings zeroScroller 16).2 = 1
    ∧ (updateScroll emptyEasings zeroScroller 16).1.currentScroll = 40 :=
  zero_duration_completes emptyEasings zeroScroller 16 0
    { id := 9, targetPosition := 40, startPosition := 0, startTime := some 0,
      duration := 0, easing := "linear" }
    rfl rfl rfl rfl (by norm_num) rfl

/-- Claim C6. On the tick where the current animation's progress reaches 1,
the value applied as the scroll position (`window.scrollTo`) and the stored
`currentScroll` both equal `targetPosition` exactly — for every easing table,
hence regardless of the easing function's output at 1 — and `targetScroll`
is set to `targetPosition` as well. -/
theorem completion_exactness (E : Easings) (s : ScrollerState) (now : ℚ) (a : Anim)
    (hR : s.isRunning = true) (hA : s.isAnimating = true) (hc : s.currentAnimation = some a)
    (hp : jsLtOne (jsMin (jsDiv (now - a.startTime.getD now) a.duration) 1) = false) :
    (updateScroll E s now).1.currentScroll = a.targetPosition
    ∧ (updateScroll E s now).1.windowScrollY = a.targetPosition
    ∧ (updateScroll E s now).1.targetScroll = a.targetPosition := by
  rw [updateScroll_animating E s now hR (by simp [hA, hc])]
  have hc' : ScrollerState.currentAnimation { s with lastTime := now } = some a := hc
  exact animateStep_complete_scroll E _ now a hc' hp

/-- Concrete instance of `completion_exactness`: `animX` (target 100)
completes at tick time 1 under an easing table whose every entry is the
constant function 1/3, and the applied value is still exactly 100. -/
theorem completion_exactness_witness :
    (updateScroll (fun _ => some (fun _ => 1/3)) busyScroller 1).1.currentScroll = 100
    ∧ (updateScroll (fun _ => some (fun _ => 1/3)) busyScroller 1).1.windowScrollY = 100
    ∧ (updateScroll (fun _ => some (fun _ => 1/3)) busyScroller 1).1.targetScroll = 100 :=
  completion_exactness (fun _ => some (fun _ => 1/3)) busyScroller 1 animX
    rfl rfl rfl (by norm_num [animX, jsDiv, jsMin, jsLtOne])

/-- Claim C5. FIFO ordering: with an animation `x` current and an empty
backlog, enqueueing `a`, `b`, `c` non-immediately and ticking past each
duration in turn yields exactly the trace
`x` completes, `a` starts, `a` completes, `b` starts, `b` completes,
`c` starts, `c` completes — the queued animations start and complete in
the order requested. -/
theorem fifo_order (E : Easings) (x a b c : Anim)
    (cs ts wy lt sm mm mdt tx te : ℚ)
    (hstx : x.startTime = some tx)
    (hdx : x.duration ≠ 0) (hda : a.duration ≠ 0) (hdb : b.duration ≠ 0)
    (hdc : c.duration ≠ 0) :
    (run E
      { currentScroll := cs, targetScroll := ts, windowScrollY := wy, lastTime := lt,
        smoothness := sm, minMovement := mm, maxDeltaTime := mdt, isRunning := true,
        animations := [], isAnimating := true, currentAnimation := some x }
      [Step.enqueue a false te, Step.enqueue b false te, Step.enqueue c false te,
       Step.tick (tx + x.duration),
       Step.tick (tx + x.duration + a.duration),
       Step.tick (tx + x.duration + a.duration + b.duration),
       Step.tick (tx + x.duration + a.duration + b.duration + c.duration)]).2
    = [Ev.complete x.id, Ev.start a.id, Ev.complete a.id, Ev.start b.id,
       Ev.complete b.id, Ev.start c.id, Ev.complete c.id] := by
  have t1 : stepRun E
      { currentScroll := cs, targetScroll := ts, windowScrollY := wy, lastTime := lt,
        smoothness := sm, minMovement := mm, maxDeltaTime := mdt, isRunning := true,
        animations := [], isAnimating := true, currentAnimation := some x }
      (Step.enqueue a false te) =
      ({ currentScroll := cs, targetScroll := ts, windowScrollY := wy, lastTime := lt,
         smoothness := sm, minMovement := mm, maxDeltaTime := mdt, isRunning := true,
         animations := [a], isAnimating := true, currentAnimation := some x }, []) := by
    simp [stepRun, enqueueAnim]
  have t2 : stepRun E
      { currentScroll := cs, targetScroll := ts, windowScrollY := wy, lastTime := lt,
        smoothness := sm, minMovement := mm, maxDeltaTime := mdt, isRunning := true,
        animations := [a], isAnimating := true, currentAnimation := some x }
      (Step.enqueue b false te) =
      ({ currentScroll := cs, targetScroll := ts, windowScrollY := wy, lastTime := lt,
         smoothness := sm, minMovement := mm, maxDeltaTime := mdt, isRunning := true,
         animations := [a, b], isAnimating := true, currentAnimation := some x }, []) := by
    simp [stepRun, enqueueAnim]
  have t3 : stepRun E
      { currentScroll := cs, targetScroll := ts, windowScrollY := wy, lastTime := lt,
        smoothness := sm, minMovement := mm, maxDeltaTime := mdt, isRunning := true,
        animations := [a, b], isAnimating := true, currentAnimation := some x }
      (Step.enqueue c false te) =
      ({ currentScroll := cs, targetScroll := ts, windowScrollY := wy, lastTime := lt,
         smoothness := sm, minMovement := mm, maxDeltaTime := mdt, isRunning := true,
         animations := [a, b, c], isAnimating := true, currentAnimation := some x }, []) := by
    simp [stepRun, enqueueAnim]
  have t4 : stepRun E
      { currentScroll := cs, targetScroll := ts, windowScrollY := wy, lastTime := lt,
        smoothness := sm, minMovement := mm, maxDeltaTime := mdt, isRunning := true,
        animations := [a, b, c], isAnimating := true, currentAnimation := some x }
      (Step.tick (tx + x.duration)) =
      ({ currentScroll := x.targetPosition, targetScroll := x.targetPosition,
         windowScrollY := x.targetPosition, lastTime := tx + x.duration,
         smoothness := sm, minMovement := mm, maxDeltaTime := mdt, isRunning := true,
         animations := [b, c], isAnimating := true,
         currentAnimation := some { a with startTime := some (tx + x.duration),
                                           startPosition := x.targetPosition } },
       [Ev.complete x.id, Ev.start a.id]) := by
    rw [show stepRun E _ (Step.tick (tx + x.duration)) =
        updateScroll E _ (tx + x.duration) from rfl]
    rw [updateScroll_complete_cons E _ (tx + x.duration) x a [b, c] rfl rfl rfl rfl
      (by rw [hstx]; simpa using jsLtOne_progress_end tx x.duration hdx)]
  have t5 : stepRun E
      { currentScroll := x.targetPosition, targetScroll := x.targetPosition,
        windowScrollY := x.targetPosition, lastTime := tx + x.duration,
        smoothness := sm, minMovement := mm, maxDeltaTime := mdt, isRunning := true,
        animations := [b, c], isAnimating := true,
        currentAnimation := some { a with startTime := some (tx + x.duration),
                                          startPosition := x.targetPosition } }
      (Step.tick (tx + x.duration + a.duration)) =
      ({ currentScroll := a.targetPosition, targetScroll := a.targetPosition,
         windowScrollY := a.targetPosition, lastTime := tx + x.duration + a.duration,
         smoothness := sm, minMovement := mm, maxDeltaTime := mdt, isRunning := true,
         animations := [c], isAnimating := true,
         currentAnimation := some { b with startTime := some (tx + x.duration + a.duration),
                                           startPosition := a.targetPosition } },
       [Ev.complete a.id, Ev.start b.id]) := by
    rw [show stepRun E _ (Step.tick (tx + x.duration + a.duration)) =
        updateScroll E _ (tx + x.duration + a.duration) from rfl]
    rw [updateScroll_complete_cons E _ (tx + x.duration + a.duration)
      { a with startTime := some (tx + x.duration), startPosition := x.targetPosition }
      b [c] rfl rfl rfl rfl
      (by simpa using jsLtOne_progress_end (tx + x.duration) a.duration hda)]
  have t6 : stepRun E
      { currentScroll := a.targetPosition, targetScroll := a.targetPosition,
        windowScrollY := a.targetPosition, lastTime := tx + x.duration + a.duration,
        smoothness := sm, minMovement := mm, maxDeltaTime := mdt, isRunning := true,
        animations := [c], isAnimating := true,
        currentAnimation := some { b with startTime := some (tx + x.duration + a.duration),
                                          startPosition := a.targetPosition } }
      (Step.tick (tx + x.duration + a.duration + b.duration)) =
      ({ currentScroll := b.targetPosition, targetScroll := b.targetPosition,
         windowScrollY := b.targetPosition,
         lastTime := tx + x.duration + a.duration + b.duration,
         smoothness := sm, minMovement := mm, maxDeltaTime := mdt, isRunning := true,
         animations := [], isAnimating := true,
         currentAnimation := some { c with
           startTime := some (tx + x.duration + a.duration + b.duration),
           startPosition := b.targetPosition } },
       [Ev.complete b.id, Ev.start c.id]) := by
    rw [show stepRun E _ (Step.tick (tx + x.duration + a.duration + b.duration)) =
        updateScroll E _ (tx + x.duration + a.duration + b.duration) from rfl]
    rw [updateScroll_complete_cons E _ (tx + x.duration + a.duration + b.duration)
      { b with startTime := some (tx + x.duration + a.duration),
               startPosition := a.targetPosition }
      c [] rfl rfl rfl rfl
      (by simpa using jsLtOne_progress_end (tx + x.duration + a.duration) b.duration hdb)]
  have t7 : stepRun E
      { currentScroll := b.targetPosition, targetScroll := b.targetPosition,
        windowScrollY := b.targetPosition,
        lastTime := tx + x.duration + a.duration + b.duration,
        smoothness := sm, minMovement := mm, maxDeltaTime := mdt, isRunning := true,
        animations := [], isAnimating := true,
        currentAnimation := some { c with
          startTime := some (tx + x.duration + a.duration + b.duration),
          startPosition := b.targetPosition } }
      (Step.tick (tx + x.duration + a.duration + b.duration + c.duration)) =
      ({ currentScroll := c.targetPosition, targetScroll := c.targetPosition,
         windowScrollY := c.targetPosition,
         lastTime := tx + x.duration + a.duration + b.duration + c.duration,
         smoothness := sm, minMovement := mm, maxDeltaTime := mdt, isRunning := true,
         animations := [], isAnimating := false, currentAnimation := none },
       [Ev.complete c.id]) := by
    rw [show stepRun E _ (Step.tick (tx + x.duration + a.duration + b.duration + c.duration)) =
        updateScroll E _ (tx + x.duration + a.duration + b.duration + c.duration) from rfl]
    rw [updateScroll_complete_nil E _ (tx + x.duration + a.duration + b.duration + c.duration)
      { c with startTime := some (tx + x.duration + a.duration + b.duration),
               startPosition := b.targetPosition } rfl rfl rfl rfl
      (by simpa using
        jsLtOne_progress_end (tx + x.duration + a.duration + b.duration) c.duration hdc)]
  simp only [run]
  rw [t1]
  simp only []
  rw [t2]
  simp only []
  rw [t3]
  simp only []
  rw [t4]
  simp only []
  rw [t5]
  simp only []
  rw [t6]
  simp only []
  rw [t7]
  simp

/-- Concrete instance of `fifo_order`: `animX` current, three queued
animations with ids 11, 12, 13 and durations 1, 2, 3. -/
theorem fifo_order_witness :
    (run emptyEasings
      { currentScroll := 0, targetScroll := 0, windowScrollY := 0, lastTime := 0,
        smoothness := 47/50, minMovement := 1/2, maxDeltaTime := 2, isRunning := true,
        animations := [], isAnimating := true, currentAnimation := some animX }
      [Step.enqueue { animX with id := 11, duration := 1 } false 0,
       Step.enqueue { animX with id := 12, duration := 2 } false 0,
       Step.enqueue { animX with id := 13, duration := 3 } false 0,
       Step.tick (0 + animX.duration),
       Step.tick (0 + animX.duration + 1),
       Step.tick (0 + animX.duration + 1 + 2),
       Step.tick (0 + animX.duration + 1 + 2 + 3)]).2
    = [Ev.complete animX.id, Ev.start 11, Ev.complete 11, Ev.start 12,
       Ev.complete 12, Ev.start 13, Ev.complete 13] :=
  fifo_order emptyEasings animX
    { animX with id := 11, duration := 1 }
    { animX with id := 12, duration := 2 }
    { animX with id := 13, duration := 3 }
    0 0 0 0 (47/50) (1/2) 2 0 0
    rfl (by norm_num [animX]) (by norm_num [animX]) (by norm_num [animX])
    (by norm_num [animX])

/-! ## `destroy` for both engines (claim C8)

The SmoothScroller `destroy` (lines 573-607) is modelled on the instance
fields it touches plus the one piece of DOM state it depends on: whether
`wrapperElement.parentNode` is non-null. Standard DOM semantics are used for
the two calls: `parent.removeChild(wrapper)` detaches the wrapper (its
`parentNode` becomes null), and `null.insertBefore(...)` throws a TypeError.
`destroy` never clears `this.wrapperElement`. -/

structure SmoothDestroyState where
  isRunning : Bool
  animationFrameId : Option Nat
  resizeObserver : Bool
  wrapperElement : Bool
  wrapperAttached : Bool
  scrollElement : Bool
deriving DecidableEq

/-- `stop()` (lines 524-533): clears `isRunning` and cancels a pending frame. -/
def stopSS (s : SmoothDestroyState) : SmoothDestroyState :=
  { s with isRunning := false, animationFrameId := none }

/-- `destroy()` (lines 573-607). Event-listener removal and style resets are
stateless here; the DOM-restore block runs whenever both `wrapperElement` and
`scrollElement` are non-null, and dereferences `wrapperElement.parentNode`. -/
def destroySS (s : SmoothDestroyState) : Except String SmoothDestroyState :=
  let s := stopSS s
  let s := if s.resizeObserver then { s with resizeObserver := false } else s
  if s.wrapperElement && s.scrollElement then
    if s.wrapperAttached then
      Except.ok { s with wrapperAttached := false }
    else
      Except.error ("TypeError: wrapperElement.parentNode is null")
  else
    Except.ok s

/-- A SmoothScroller after a completed `init`/`setupScrollStructure`: running,
wrapper created and attached, observer installed. -/
def initializedSS : SmoothDestroyState :=
  { isRunning := true, animationFrameId := some 1, resizeObserver := true,
    wrapperElement := true, wrapperAttached := true, scrollElement := true }

/-- The state after the first `destroy`: stopped, observer released, wrapper
detached from the DOM but still referenced by the instance. -/
def afterFirstDestroySS : SmoothDestroyState :=
  { isRunning := false, animationFrameId := none, resizeObserver := false,
    wrapperElement := true, wrapperAttached := false, scrollElement := true }

/-- Parallax instance state touched by its `destroy`
(openscroll.parallax.js lines 447-480). Observer `disconnect()` is
idempotent per the DOM specification and the references are retained, so
only timers and collections carry state here. -/
structure ParallaxDestroyState where
  isRunning : Bool
  rafId : Option Nat
  scrollTimeout : Option Nat
  debounceTimers : List Nat
  elements : List Nat
  visibleElements : List Nat
deriving DecidableEq

/-- Parallax `stop()` (lines 434-445). -/
def stopP (s : ParallaxDestroyState) : ParallaxDestroyState :=
  { s with isRunning := false, rafId := none }

/-- Parallax `destroy()` (lines 447-480): stop, clear all timers, remove
listeners, disconnect observers, reset element styles, clear collections.
Every operation is total. -/
def destroyP (s : ParallaxDestroyState) : ParallaxDestroyState :=
  let s := stopP s
  let s := { s with scrollTimeout := none, debounceTimers := [] }
  { s with elements := [], visibleElements := [] }

/-- Claim C8, evaluated at the failing input. On a SmoothScroller that
completed initialization, the first `destroy` succeeds and detaches the
wrapper, but the second `destroy` reaches the DOM-restore block again
(`wrapperElement` was never cleared) and dereferences the now-null
`parentNode`, throwing — `destroy` is not idempotent for the SmoothScroller.
For the Parallax engine `destroy` is idempotent as claimed. -/
theorem destroy_second_call_throws :
    (destroySS initializedSS = Except.ok afterFirstDestroySS
     ∧ destroySS afterFirstDestroySS =
        Except.error ("TypeError: wrapperElement.parentNode is null"))
    ∧ ∀ p : ParallaxDestroyState, destroyP (destroyP p) = destroyP p := by
  exact ⟨⟨rfl, rfl⟩, fun p => rfl⟩

/-! ## Parallax transform computation (claim C9) -/

/-- A tracked parallax item: the fields read by `calculateTransform`
(openscroll.parallax.js lines 331-367). `createParallaxItem` clamps `speed`
to [-2, 2]; the clamp is immaterial to the transform bound. -/
structure PItem where
  speed : ℚ
  direction : String
  offset : ℚ
  initX : ℚ
  initY : ℚ
deriving DecidableEq

/-- The `switch (direction)` block of `calculateTransform` (lines 335-357):
the scroll-proportional offset applied to the axes selected by `direction`,
starting from the element's initial transform. -/
def rawTransform (scrollX scrollY : ℚ) (item : PItem) : ℚ × ℚ :=
  let scrollDiffY := scrollY * item.speed
  let scrollDiffX := scrollX * item.speed
  match item.direction with
  | "vertical" => (item.initX, item.initY + scrollDiffY + item.offset)
  | "horizontal" => (item.initX + scrollDiffX + item.offset, item.initY)
  | "both" => (item.initX + scrollDiffX + item.offset,
               item.initY + scrollDiffY + item.offset)
  | _ => (item.initX, item.initY)

/-- The containment step of `calculateTransform` (lines 359-366):
`Math.max(-max, Math.min(max, t))` on each axis when `containTransforms`. -/
def calculateTransform (containTransforms : Bool) (maxTransform : ℚ)
    (scrollX scrollY : ℚ) (item : PItem) : ℚ × ℚ :=
  let t := rawTransform scrollX scrollY item
  if containTransforms then
    (max (-maxTransform) (min maxTransform t.1),
     max (-maxTransform) (min maxTransform t.2))
  else t

/-- Claim C9. With `containTransforms = true` and a nonnegative
`maxTransform`, the computed transform lies in
`[-maxTransform, maxTransform]` on both axes, for every tracked item and
every scroll offset — in particular within `[-300, 300]` for
`maxTransform = 300`. -/
theorem parallax_clamping (m scrollX scrollY : ℚ) (item : PItem) (hm : 0 ≤ m) :
    -m ≤ (calculateTransform true m scrollX scrollY item).1
    ∧ (calculateTransform true m scrollX scrollY item).1 ≤ m
    ∧ -m ≤ (calculateTransform true m scrollX scrollY item).2
    ∧ (calculateTransform true m scrollX scrollY item).2 ≤ m := by
  have hb : ∀ q : ℚ, -m ≤ max (-m) (min m q) ∧ max (-m) (min m q) ≤ m := by
    intro q
    refine ⟨le_max_left _ _, max_le (by linarith) (min_le_left _ _)⟩
  exact ⟨(hb _).1, (hb _).2, (hb _).1, (hb _).2⟩

/-- Concrete instance of `parallax_clamping`: `maxTransform = 300`, a
vertical item at maximal speed 2, scroll offset one million. -/
theorem parallax_clamping_witness :
    -300 ≤ (calculateTransform true 300 0 1000000
        { speed := 2, direction := "vertical", offset := 10, initX := 0, initY := 0 }).1
    ∧ (calculateTransform true 300 0 1000000
        { speed := 2, direction := "vertical", offset := 10, initX := 0, initY := 0 }).1 ≤ 300
    ∧ -300 ≤ (calculateTransform true 300 0 1000000
        { speed := 2, direction := "vertical", offset := 10, initX := 0, initY := 0 }).2
    ∧ (calculateTransform true 300 0 1000000
        { speed := 2, direction := "vertical", offset := 10, initX := 0, initY := 0 }).2 ≤ 300 :=
  parallax_clamping 300 0 1000000
    { speed := 2, direction := "vertical", offset := 10, initX := 0, initY := 0 }
    (by norm_num)

end OpenScroll
